import Mathlib

/-!
Shallow embedding of `geocoder.go` (package `geo`): a generic framework for
geocode / reverse-geocode clients.  Coordinates (Go `float64`) are modelled as
rationals; the two public operations race a worker against a fixed timeout,
modelled by an explicit race-winner oracle (and, on top of it, by a worker
latency compared against the timeout constant).  External collaborators
(`EndpointBuilder`, `ResponseParser`, the HTTP transport and `json.Unmarshal`)
are modelled as explicit function parameters; mutation of the decode target is
modelled by explicit state passing.
-/

namespace Geo

/-- `Location` from geocoder.go: the output of Geocode, a coordinate pair.
Go `float64` fields are modelled as rationals. -/
structure Location where
  Lat : ℚ
  Lng : ℚ
deriving DecidableEq, Repr

/-- The two sentinel errors of geocoder.go: `TimeoutError` ("TIMEOUT") and
`NoResultError` ("NO_RESULT"). -/
inductive GeoError where
  | TimeoutError
  | NoResultError
deriving DecidableEq, Repr

/-- The dynamic value passed to Go's `anyError(v interface{})`: a `Location`,
a `string`, or anything else (the switch's implicit default). -/
inductive GeoValue where
  | loc (v : Location)
  | str (v : String)
  | other
deriving DecidableEq

/-- `anyError` from geocoder.go lines 89-101: type-switch on the value,
`NoResultError` for a zero `Location` or an empty string, `nil` otherwise. -/
def anyError : GeoValue → Option GeoError
  | .loc v => if v.Lat = 0 ∧ v.Lng = 0 then some .NoResultError else none
  | .str v => if v = "" then some .NoResultError else none
  | .other => none

/-- The cutset of `strings.Trim(string(data), " []")` on line 83:
space and the two square brackets. -/
def trimCut (c : Char) : Bool := c = ' ' ∨ c = '[' ∨ c = ']'

/-- Leading half of Go `strings.Trim`: drop every leading cutset character. -/
def trimLeftData (l : List Char) : List Char := l.dropWhile trimCut

/-- Trailing half of Go `strings.Trim`: drop every trailing cutset character. -/
def trimRightData (l : List Char) : List Char := (l.reverse.dropWhile trimCut).reverse

/-- `strings.Trim(s, " []")` as used on line 83 of geocoder.go. -/
def goTrim (s : String) : String := ⟨trimRightData (trimLeftData s.data)⟩

/-- State observable through a `ResponseParser`: the decoded `Location()` and
`Address()`.  Mutation of a parser object is modelled by replacing its state. -/
structure ParserState where
  location : Location
  address : String
deriving DecidableEq, Repr

/-- Outcome of reading the response body (`ioutil.ReadAll`): an error, or the
full body as a string. -/
structure HttpResponse where
  statusCode : Nat
  body : Except Unit String

/-- Outcome of `(&http.Client{}).Do(req)`: a transport error, or a response. -/
inductive DoResult where
  | doError
  | ok (resp : HttpResponse)

/-- The HTTP side effects used by `response`: whether `http.NewRequest`
succeeds for a URL, and what `Do` returns for it. -/
structure Network where
  newRequestOk : String → Bool
  perform : String → DoResult

/-- `response` from geocoder.go lines 78-87: build the GET request, perform it,
read the body, trim `" []"`, and decode into the target; every failure is
swallowed, leaving the decode target unchanged.  `unmarshal` models
`json.Unmarshal` specialised to the provider's response shape: it returns the
(possibly unchanged) state of the decode target. -/
def response (net : Network) (unmarshal : String → ParserState → ParserState)
    (url : String) (obj : ParserState) : ParserState :=
  if net.newRequestOk url then
    match net.perform url with
    | .doError => obj
    | .ok resp =>
      match resp.body with
      | .error _ => obj
      | .ok data => unmarshal (goTrim data) obj
  else obj

/-! ### url.QueryEscape (net/url), applied on line 49 before the builder -/

/-- UTF-8 encoding of one character, as Go's `[]byte(s)` produces it. -/
def charBytes (c : Char) : List Nat :=
  let n := c.toNat
  if n < 128 then [n]
  else if n < 2048 then [192 + n / 64, 128 + n % 64]
  else if n < 65536 then [224 + n / 4096, 128 + n / 64 % 64, 128 + n % 64]
  else [240 + n / 262144, 128 + n / 4096 % 64, 128 + n / 64 % 64, 128 + n % 64]

/-- The bytes of a Go string (UTF-8). -/
def strBytes (s : String) : List Nat := s.data.flatMap charBytes

/-- Go `net/url.shouldEscape` in query mode returns false exactly for
alphanumerics and `-`, `_`, `.`, `~`. -/
def isUnreservedByte (b : Nat) : Bool :=
  (65 ≤ b ∧ b ≤ 90) ∨ (97 ≤ b ∧ b ≤ 122) ∨ (48 ≤ b ∧ b ≤ 57) ∨
    b = 45 ∨ b = 95 ∨ b = 46 ∨ b = 126

/-- Go's `upperhex` table "0123456789ABCDEF", as bytes. -/
def upperhex : List Nat := [48, 49, 50, 51, 52, 53, 54, 55, 56, 57, 65, 66, 67, 68, 69, 70]

/-- Hex digit byte for a nibble. -/
def hexByte (n : Nat) : Nat := upperhex.getD n 48

/-- One byte of `url.QueryEscape` output: space becomes `+`, unreserved bytes
pass through, everything else becomes `%XY` with uppercase hex. -/
def escapeByte (b : Nat) : List Nat :=
  if b = 32 then [43]
  else if isUnreservedByte b then [b]
  else [37, hexByte (b / 16), hexByte (b % 16)]

/-- `url.QueryEscape` at the byte level. -/
def queryEscapeBytes (bs : List Nat) : List Nat := bs.flatMap escapeByte

/-- `url.QueryEscape` on strings.  Every output byte is printable ASCII, so
rebuilding the string byte-by-byte is faithful. -/
def queryEscape (s : String) : String :=
  ⟨(queryEscapeBytes (strBytes s)).map Char.ofNat⟩

/-! ### The Geocoder facade -/

/-- Behaviour of `ResponseParser.ResponseObject()`: either it returns the
embedded parser object itself (aliasing, as provider implementations that
`return r` do), or a genuinely fresh object with the given initial state. -/
inductive FreshTarget where
  | self
  | fresh (init : ParserState)
deriving DecidableEq

/-- The `Geocoder` struct (embedded `EndpointBuilder` + `ResponseParser`)
together with its execution environment (transport and JSON decode). -/
structure Geocoder where
  geocodeUrl : String → String
  reverseGeocodeUrl : Location → String
  parser : ParserState
  responseObject : FreshTarget
  net : Network
  unmarshal : String → ParserState → ParserState

/-- Which arm of the `select` fires first: the worker channel or `time.After`. -/
inductive RaceWinner where
  | worker
  | timer
deriving DecidableEq, Repr

/-- `var timeoutInSeconds = time.Second * 8` (line 16), in nanoseconds,
the unit of Go `time.Duration`. -/
def timeoutInSeconds : Nat := 8 * 1000000000

/-- The state of the object returned by `g.ResponseObject()` on lines 49/65,
before decoding. -/
def responseObjectInit (g : Geocoder) : ParserState :=
  match g.responseObject with
  | .self => g.parser
  | .fresh init => init

/-- The argument passed to `g.GeocodeUrl` on line 49: the query-escaped
address, `url.QueryEscape(address)`. -/
def builderGeocodeInput (address : String) : String := queryEscape address

/-- The URL requested by the Geocode worker (line 49). -/
def geocodeRequestUrl (g : Geocoder) (address : String) : String :=
  g.geocodeUrl (builderGeocodeInput address)

/-- Final state of the decode target after `response(g.GeocodeUrl(...),
g.ResponseObject())` (line 49). -/
def geocodeDecoded (g : Geocoder) (address : String) : ParserState :=
  response g.net g.unmarshal (geocodeRequestUrl g address) (responseObjectInit g)

/-- The value the worker sends on the channel (line 50): `g.Location()`, read
from the *embedded* parser.  It reflects the decode only when
`ResponseObject()` aliased the embedded parser. -/
def geocodeDelivered (g : Geocoder) (address : String) : Location :=
  match g.responseObject with
  | .self => (geocodeDecoded g address).location
  | .fresh _ => g.parser.location

/-- The URL requested by the ReverseGeocode worker (line 65):
`g.ReverseGeocodeUrl(Location{lat, lng})`, no escaping. -/
def reverseRequestUrl (g : Geocoder) (lat lng : ℚ) : String :=
  g.reverseGeocodeUrl ⟨lat, lng⟩

/-- Final state of the decode target in the ReverseGeocode worker (line 65). -/
def reverseDecoded (g : Geocoder) (lat lng : ℚ) : ParserState :=
  response g.net g.unmarshal (reverseRequestUrl g lat lng) (responseObjectInit g)

/-- The value the ReverseGeocode worker sends (line 66): `g.Address()`. -/
def reverseDelivered (g : Geocoder) (lat lng : ℚ) : String :=
  match g.responseObject with
  | .self => (reverseDecoded g lat lng).address
  | .fresh _ => g.parser.address

/-- `Geocoder.Geocode` (lines 46-59), with the race outcome of the `select`
made explicit: the worker arm returns the delivered location classified by
`anyError`; the `time.After` arm returns `Location{}, TimeoutError`. -/
def Geocode (g : Geocoder) (address : String) (w : RaceWinner) :
    Location × Option GeoError :=
  match w with
  | .worker => (geocodeDelivered g address, anyError (.loc (geocodeDelivered g address)))
  | .timer => (⟨0, 0⟩, some .TimeoutError)

/-- `Geocoder.ReverseGeocode` (lines 62-75), race outcome explicit. -/
def ReverseGeocode (g : Geocoder) (lat lng : ℚ) (w : RaceWinner) :
    String × Option GeoError :=
  match w with
  | .worker => (reverseDelivered g lat lng, anyError (.str (reverseDelivered g lat lng)))
  | .timer => ("", some .TimeoutError)

/-- The `select` of lines 53-58/69-74 as a function of the worker's latency in
nanoseconds: the strictly faster event wins; an exact tie is resolved by Go's
pseudo-random choice, modelled by an oracle. -/
def raceOutcome (workerNs : Nat) (tie : RaceWinner) : RaceWinner :=
  if workerNs < timeoutInSeconds then .worker
  else if timeoutInSeconds < workerNs then .timer
  else tie

/-- `Geocode` with the race decided by the worker's latency. -/
def GeocodeAt (g : Geocoder) (address : String) (workerNs : Nat) (tie : RaceWinner) :
    Location × Option GeoError :=
  Geocode g address (raceOutcome workerNs tie)

/-- `ReverseGeocode` with the race decided by the worker's latency. -/
def ReverseGeocodeAt (g : Geocoder) (lat lng : ℚ) (workerNs : Nat) (tie : RaceWinner) :
    String × Option GeoError :=
  ReverseGeocode g lat lng (raceOutcome workerNs tie)

/-- A network that accepts every request and always answers with the given
status code and body-read outcome. -/
def netResp (status : Nat) (body : Except Unit String) : Network :=
  { newRequestOk := fun _ => true, perform := fun _ => .ok ⟨status, body⟩ }

/-- A network that always succeeds with the given status code and body. -/
def netConst (status : Nat) (body : String) : Network :=
  netResp status (.ok body)

/-! ### A JSON text recognizer, modelling encoding/json's validity scan -/

/-- JSON insignificant whitespace. -/
def jsonWs (c : Char) : Bool := c = ' ' ∨ c = '\t' ∨ c = '\n' ∨ c = '\r'

/-- Drop leading JSON whitespace. -/
def skipWs (s : List Char) : List Char := s.dropWhile jsonWs

/-- Match a literal character sequence, returning the rest of the input. -/
def parseLit : List Char → List Char → Option (List Char)
  | [], s => some s
  | _ :: _, [] => none
  | c :: cs, d :: ds => if c = d then parseLit cs ds else none

/-- Decimal digit. -/
def isDigitCh (c : Char) : Bool := '0' ≤ c ∧ c ≤ '9'

/-- Hexadecimal digit. -/
def isHexDigitCh (c : Char) : Bool :=
  isDigitCh c ∨ ('a' ≤ c ∧ c ≤ 'f') ∨ ('A' ≤ c ∧ c ≤ 'F')

/-- One or more decimal digits. -/
def parseDigits (s : List Char) : Option (List Char) :=
  match s with
  | c :: rest => if isDigitCh c then some (rest.dropWhile isDigitCh) else none
  | [] => none

/-- JSON integer part: `0` or a nonzero digit followed by digits. -/
def parseIntPart : List Char → Option (List Char)
  | '0' :: rest => some rest
  | c :: rest => if '1' ≤ c ∧ c ≤ '9' then some (rest.dropWhile isDigitCh) else none
  | [] => none

/-- Optional JSON fraction part. -/
def parseFrac : List Char → Option (List Char)
  | '.' :: rest => parseDigits rest
  | s => some s

/-- Optional JSON exponent part. -/
def parseExpPart : List Char → Option (List Char)
  | c :: rest =>
    if c = 'e' ∨ c = 'E' then
      match rest with
      | '+' :: r2 => parseDigits r2
      | '-' :: r2 => parseDigits r2
      | r2 => parseDigits r2
    else some (c :: rest)
  | [] => some []

/-- JSON number. -/
def parseNumber (s : List Char) : Option (List Char) :=
  let s1 := match s with
    | '-' :: r => r
    | _ => s
  match parseIntPart s1 with
  | none => none
  | some r1 =>
    match parseFrac r1 with
    | none => none
    | some r2 => parseExpPart r2

/-- JSON string body, after the opening quote; fueled. -/
def parseStr : Nat → List Char → Option (List Char)
  | 0, _ => none
  | _ + 1, [] => none
  | _ + 1, '"' :: rest => some rest
  | f + 1, '\\' :: rest =>
    match rest with
    | [] => none
    | c :: r2 =>
      if c = '"' ∨ c = '\\' ∨ c = '/' ∨ c = 'b' ∨ c = 'f' ∨ c = 'n' ∨ c = 'r' ∨ c = 't' then
        parseStr f r2
      else if c = 'u' then
        match r2 with
        | h1 :: h2 :: h3 :: h4 :: r3 =>
          if isHexDigitCh h1 ∧ isHexDigitCh h2 ∧ isHexDigitCh h3 ∧ isHexDigitCh h4 then
            parseStr f r3
          else none
        | _ => none
      else none
  | f + 1, c :: rest => if c.toNat < 32 then none else parseStr f rest

mutual

/-- One JSON value (with leading whitespace); fueled. -/
def parseValue : Nat → List Char → Option (List Char)
  | 0, _ => none
  | f + 1, s =>
    match skipWs s with
    | '\x7b' :: rest => parseObjectBody f (skipWs rest)
    | '[' :: rest => parseArrayBody f (skipWs rest)
    | '"' :: rest => parseStr (f + 1) rest
    | 't' :: rest => parseLit ['r', 'u', 'e'] rest
    | 'f' :: rest => parseLit ['a', 'l', 's', 'e'] rest
    | 'n' :: rest => parseLit ['u', 'l', 'l'] rest
    | s2 => parseNumber s2

/-- Object body after `{` and whitespace. -/
def parseObjectBody : Nat → List Char → Option (List Char)
  | 0, _ => none
  | f + 1, s =>
    match s with
    | '\x7d' :: rest => some rest
    | '"' :: rest =>
      match parseStr (f + 1) rest with
      | none => none
      | some r1 =>
        match skipWs r1 with
        | ':' :: r2 =>
          match parseValue f r2 with
          | none => none
          | some r3 => parseObjectTail f (skipWs r3)
        | _ => none
    | _ => none

/-- Object members after the first member. -/
def parseObjectTail : Nat → List Char → Option (List Char)
  | 0, _ => none
  | f + 1, s =>
    match s with
    | '\x7d' :: rest => some rest
    | ',' :: rest =>
      match skipWs rest with
      | '"' :: r1 =>
        match parseStr (f + 1) r1 with
        | none => none
        | some r2 =>
          match skipWs r2 with
          | ':' :: r3 =>
            match parseValue f r3 with
            | none => none
            | some r4 => parseObjectTail f (skipWs r4)
          | _ => none
      | _ => none
    | _ => none

/-- Array body after `[` and whitespace. -/
def parseArrayBody : Nat → List Char → Option (List Char)
  | 0, _ => none
  | f + 1, s =>
    match s with
    | ']' :: rest => some rest
    | _ =>
      match parseValue f s with
      | none => none
      | some r => parseArrayTail f (skipWs r)

/-- Array elements after the first element. -/
def parseArrayTail : Nat → List Char → Option (List Char)
  | 0, _ => none
  | f + 1, s =>
    match s with
    | ']' :: rest => some rest
    | ',' :: rest =>
      match parseValue f rest with
      | none => none
      | some r => parseArrayTail f (skipWs r)
    | _ => none

end

/-- Modelled from the spec: Go's `encoding/json.Unmarshal` (not part of this
repository) first scans the whole payload for validity — the payload must be
exactly one JSON value, with optional surrounding whitespace — and returns a
syntax error, leaving the decode target untouched, when the scan fails.
`isJsonText s` holds iff `s` is one complete JSON value. -/
def isJsonText (s : String) : Bool :=
  match parseValue (s.data.length + 1) s.data with
  | some r => (skipWs r).isEmpty
  | none => false

/-! ### Auxiliary models used by concrete instantiations -/

/-- The full observable behaviour of one `Geocode` call: the pair returned to
the caller, plus the final state of the background worker's decode target —
the worker always runs `response` to completion, whichever arm of the
`select` fired. -/
def geocodeTrace (g : Geocoder) (address : String) (w : RaceWinner) :
    (Location × Option GeoError) × ParserState :=
  (Geocode g address w, geocodeDecoded g address)

/-- Replace every status code a network answers with, leaving everything else
unchanged.  `response` never reads the status code, so this is invisible to it. -/
def withStatus (net : Network) (f : Nat → Nat) : Network :=
  { newRequestOk := net.newRequestOk
    perform := fun u =>
      match net.perform u with
      | .doError => .doError
      | .ok r => .ok ⟨f r.statusCode, r.body⟩ }

/-- Fake geocoder whose `ResponseObject()` returns a genuinely fresh blank
decode target and whose decode deterministically yields `Location{1, 2}`;
the embedded parser itself exposes `Location{5, 6}`. -/
def g1 : Geocoder :=
  { geocodeUrl := fun u => u
    reverseGeocodeUrl := fun _ => ""
    parser := ⟨⟨5, 6⟩, "old"⟩
    responseObject := .fresh ⟨⟨0, 0⟩, ""⟩
    net := netConst 200 "ignored"
    unmarshal := fun _ _ => ⟨⟨1, 2⟩, "decoded"⟩ }

/-- Fake geocoder whose `ResponseObject()` returns the embedded parser itself
(`return r`, as provider implementations do) and whose decode deterministically
yields `Location{1, 2}`. -/
def g2 : Geocoder :=
  { geocodeUrl := fun u => u
    reverseGeocodeUrl := fun _ => ""
    parser := ⟨⟨0, 0⟩, ""⟩
    responseObject := .self
    net := netConst 200 "\x7b\"lat\":1,\"lng\":2\x7d"
    unmarshal := fun _ _ => ⟨⟨1, 2⟩, "decoded"⟩ }

/-- Fake geocoder whose endpoint builder is the identity, exposing exactly the
string the builder receives. -/
def g3 : Geocoder :=
  { geocodeUrl := fun u => u
    reverseGeocodeUrl := fun _ => ""
    parser := ⟨⟨0, 0⟩, ""⟩
    responseObject := .self
    net := netConst 200 ""
    unmarshal := fun _ st => st }

/-- Fake geocoder whose parser never produces a non-zero Location. -/
def gZero : Geocoder :=
  { geocodeUrl := fun u => u
    reverseGeocodeUrl := fun _ => ""
    parser := ⟨⟨0, 0⟩, ""⟩
    responseObject := .self
    net := netConst 200 "\x7b\x7d"
    unmarshal := fun _ st => st }

/-- A response body that is a genuine two-element top-level JSON array. -/
def multiElementBody : String := "[\x7b\"lat\":1\x7d,\x7b\"lng\":2\x7d]"

/-- What the trim step leaves of `multiElementBody`: the brackets are gone and
the remainder is no longer one JSON value. -/
def multiElementTrimmed : String := "\x7b\"lat\":1\x7d,\x7b\"lng\":2\x7d"

/-- A decode routine honouring the `encoding/json` contract: it mutates the
target only when the payload is one valid JSON value. -/
def uJson : String → ParserState → ParserState :=
  fun s st => if isJsonText s then ⟨⟨7, 7⟩, "decoded"⟩ else st

/-! ### Helper lemmas about the trim step -/

theorem dropWhile_head?_false (p : Char → Bool) :
    ∀ (l : List Char) (c : Char), (l.dropWhile p).head? = some c → p c = false := by
  intro l
  induction l with
  | nil => intro c h; simp [List.dropWhile] at h
  | cons a t ih =>
    intro c h
    by_cases ha : p a
    · rw [List.dropWhile_cons_of_pos ha] at h
      exact ih c h
    · rw [List.dropWhile_cons_of_neg ha] at h
      simp only [List.head?_cons, Option.some.injEq] at h
      rw [← h]
      simpa using ha

theorem exists_dropWhile_eq (p : Char → Bool) (l : List Char) :
    ∃ t, l = t ++ l.dropWhile p := by
  induction l with
  | nil => exact ⟨[], rfl⟩
  | cons a t ih =>
    by_cases ha : p a
    · obtain ⟨u, hu⟩ := ih
      exact ⟨a :: u, by rw [List.dropWhile_cons_of_pos ha, List.cons_append, ← hu]⟩
    · exact ⟨[], by simp [List.dropWhile_cons_of_neg ha]⟩

theorem trimRightData_head?_sub (l : List Char) (c : Char)
    (h : (trimRightData l).head? = some c) : l.head? = some c := by
  obtain ⟨t, ht⟩ := exists_dropWhile_eq trimCut l.reverse
  have hl : l = trimRightData l ++ t.reverse := by
    have h2 := congrArg List.reverse ht
    simpa [trimRightData, List.reverse_append] using h2
  rw [hl, List.head?_append, h]
  rfl

theorem goTrim_head? (s : String) (c : Char)
    (h : (goTrim s).data.head? = some c) : trimCut c = false := by
  have h1 : (trimLeftData s.data).head? = some c :=
    trimRightData_head?_sub _ _ (by simpa [goTrim] using h)
  exact dropWhile_head?_false trimCut _ c h1

theorem goTrim_getLast? (s : String) (c : Char)
    (h : (goTrim s).data.getLast? = some c) : trimCut c = false := by
  have h1 : ((trimLeftData s.data).reverse.dropWhile trimCut).head? = some c := by
    simpa [goTrim, trimRightData, List.getLast?_reverse] using h
  exact dropWhile_head?_false trimCut _ c h1

theorem trimRightData_append_bracket (x : List Char) :
    trimRightData (x ++ [']']) = trimRightData x := by
  simp [trimRightData, List.reverse_append,
    List.dropWhile_cons_of_pos (show trimCut ']' by decide)]

theorem goTrim_wrap (P : String) : goTrim ("[" ++ P ++ "]") = goTrim P := by
  have hdata : ("[" ++ P ++ "]").data = '[' :: (P.data ++ [']']) := by
    simp [String.data_append]
  show (⟨trimRightData (trimLeftData ("[" ++ P ++ "]").data)⟩ : String)
      = ⟨trimRightData (trimLeftData P.data)⟩
  rw [hdata]
  rw [show trimLeftData ('[' :: (P.data ++ [']'])) = (P.data ++ [']']).dropWhile trimCut from by
    simp [trimLeftData, List.dropWhile_cons_of_pos (show trimCut '[' by decide)]]
  rw [List.dropWhile_append]
  by_cases hE : (P.data.dropWhile trimCut).isEmpty
  · have h0 : P.data.dropWhile trimCut = [] := List.isEmpty_iff.mp hE
    simp [hE, trimLeftData, h0, List.dropWhile,
      show trimCut ']' from by decide]
  · simp only [hE, if_false, Bool.false_eq_true]
    rw [trimRightData_append_bracket]
    rfl


/-! ### Helper lemmas about the classifier and the escaper -/

theorem anyError_ne_timeout (v : GeoValue) : anyError v ≠ some GeoError.TimeoutError := by
  cases v with
  | loc v => by_cases h : v.Lat = 0 ∧ v.Lng = 0 <;> simp [anyError, h]
  | str v => by_cases h : v = "" <;> simp [anyError, h]
  | other => simp [anyError]

theorem anyError_none_or_noResult (v : GeoValue) :
    anyError v = none ∨ anyError v = some GeoError.NoResultError := by
  cases v with
  | loc v => by_cases h : v.Lat = 0 ∧ v.Lng = 0 <;> simp [anyError, h]
  | str v => by_cases h : v = "" <;> simp [anyError, h]
  | other => simp [anyError]

theorem hexByte_ne_space (n : Nat) : hexByte n ≠ 32 := by
  unfold hexByte
  rw [List.getD_eq_getElem?_getD]
  cases h : upperhex[n]? with
  | none => simp
  | some v =>
    have hv : v ∈ upperhex := List.getElem?_mem h
    have hall : ∀ x ∈ upperhex, x ≠ 32 := by decide
    simpa using hall v hv

theorem escapeByte_no_space (b : Nat) : ∀ x ∈ escapeByte b, x ≠ 32 := by
  intro x hx
  unfold escapeByte at hx
  split at hx
  · simp at hx
    subst hx
    decide
  · split at hx
    · simp at hx
      subst hx
      rename_i h32 hu
      intro hb
      rw [hb] at hu
      exact absurd hu (by decide)
    · simp at hx
      rcases hx with rfl | rfl | rfl
      · decide
      · exact hexByte_ne_space _
      · exact hexByte_ne_space _

theorem queryEscapeBytes_no_space (bs : List Nat) :
    ∀ x ∈ queryEscapeBytes bs, x ≠ 32 := by
  intro x hx
  unfold queryEscapeBytes at hx
  rcases List.mem_flatMap.mp hx with ⟨b, _, hxb⟩
  exact escapeByte_no_space b x hxb

/-! ### Claim theorems -/

/-- C4: on the non-timeout branch the classifier `anyError` returns
`NoResultError` for a `Location` iff both coordinates are exactly zero, and for
a string iff the string is exactly empty; in every other case it returns no
error.  Consequently a non-timeout `Geocode` call whose parser never produces a
non-zero Location returns `(Location{0,0}, NoResultError)`. -/
theorem anyError_noResult_classification :
    (∀ v : Location, anyError (.loc v) = some .NoResultError ↔ (v.Lat = 0 ∧ v.Lng = 0)) ∧
    (∀ v : Location, ¬(v.Lat = 0 ∧ v.Lng = 0) → anyError (.loc v) = none) ∧
    (∀ s : String, anyError (.str s) = some .NoResultError ↔ s = "") ∧
    (∀ s : String, s ≠ "" → anyError (.str s) = none) ∧
    (∀ (g : Geocoder) (a : String), geocodeDelivered g a = ⟨0, 0⟩ →
      Geocode g a .worker = (⟨0, 0⟩, some .NoResultError)) := by
  refine ⟨?_, ?_, ?_, ?_, ?_⟩
  · intro v
    by_cases h : v.Lat = 0 ∧ v.Lng = 0 <;> simp [anyError, h]
  · intro v h
    simp [anyError, h]
  · intro s
    by_cases h : s = "" <;> simp [anyError, h]
  · intro s h
    simp [anyError, h]
  · intro g a h
    simp [Geocode, h, anyError]

/-- Witness for C4 at concrete inputs. -/
theorem anyError_noResult_classification_witness :
    anyError (.loc ⟨3, 0⟩) = none ∧ anyError (.str "x") = none ∧
    Geocode gZero "x" .worker = (⟨0, 0⟩, some .NoResultError) :=
  ⟨anyError_noResult_classification.2.1 ⟨3, 0⟩ (by decide),
   anyError_noResult_classification.2.2.2.1 "x" (by decide),
   anyError_noResult_classification.2.2.2.2 gZero "x" rfl⟩

/-- C5: whenever the timer fires before the worker delivers, `Geocode` returns
`(Location{}, TimeoutError)` and `ReverseGeocode` returns `("", TimeoutError)`,
and both operations race against the same single fixed duration
`timeoutInSeconds = 8 * time.Second`. -/
theorem timeout_uniform_eight_seconds :
    (∀ (g : Geocoder) (a : String) (t : Nat) (tie : RaceWinner),
      timeoutInSeconds < t → GeocodeAt g a t tie = (⟨0, 0⟩, some .TimeoutError)) ∧
    (∀ (g : Geocoder) (lat lng : ℚ) (t : Nat) (tie : RaceWinner),
      timeoutInSeconds < t → ReverseGeocodeAt g lat lng t tie = ("", some .TimeoutError)) ∧
    (∀ (g : Geocoder) (a : String), Geocode g a .timer = (⟨0, 0⟩, some .TimeoutError)) ∧
    (∀ (g : Geocoder) (lat lng : ℚ), ReverseGeocode g lat lng .timer = ("", some .TimeoutError)) ∧
    timeoutInSeconds = 8 * 1000000000 := by
  refine ⟨?_, ?_, fun g a => rfl, fun g lat lng => rfl, rfl⟩
  · intro g a t tie h
    have h1 : ¬ t < timeoutInSeconds := Nat.not_lt.mpr (Nat.le_of_lt h)
    simp [GeocodeAt, raceOutcome, h1, h, Geocode]
  · intro g lat lng t tie h
    have h1 : ¬ t < timeoutInSeconds := Nat.not_lt.mpr (Nat.le_of_lt h)
    simp [ReverseGeocodeAt, raceOutcome, h1, h, ReverseGeocode]

/-- Witness for C5: a worker slower than 8s loses the race on both paths. -/
theorem timeout_uniform_eight_seconds_witness :
    GeocodeAt gZero "x" 9000000000 .worker = (⟨0, 0⟩, some .TimeoutError) ∧
    ReverseGeocodeAt gZero 1 2 9000000000 .worker = ("", some .TimeoutError) :=
  ⟨timeout_uniform_eight_seconds.1 gZero "x" 9000000000 .worker (by decide),
   timeout_uniform_eight_seconds.2.1 gZero 1 2 9000000000 .worker (by decide)⟩

/-- C6: for every behaviour of the transport and parser, the error component of
`Geocode` and `ReverseGeocode` is always one of nil, `TimeoutError`,
`NoResultError`; the classifier itself only ever yields nil or `NoResultError`. -/
theorem public_errors_only_sentinels (g : Geocoder) (a : String) (lat lng : ℚ)
    (w : RaceWinner) :
    ((Geocode g a w).2 = none ∨ (Geocode g a w).2 = some .TimeoutError ∨
      (Geocode g a w).2 = some .NoResultError) ∧
    ((ReverseGeocode g lat lng w).2 = none ∨
      (ReverseGeocode g lat lng w).2 = some .TimeoutError ∨
      (ReverseGeocode g lat lng w).2 = some .NoResultError) ∧
    (∀ v : GeoValue, anyError v = none ∨ anyError v = some .NoResultError) := by
  refine ⟨?_, ?_, anyError_none_or_noResult⟩
  · cases w with
    | worker =>
      rcases anyError_none_or_noResult (.loc (geocodeDelivered g a)) with h | h <;>
        simp [Geocode, h]
    | timer => simp [Geocode]
  · cases w with
    | worker =>
      rcases anyError_none_or_noResult (.str (reverseDelivered g lat lng)) with h | h <;>
        simp [ReverseGeocode, h]
    | timer => simp [ReverseGeocode]

/-- C7: a payload wrapped in a single-element array decodes identically to the
unwrapped payload — the trim step erases the wrapper, so the decode target ends
in the same state. -/
theorem wrapped_payload_decode_equivalence
    (unmarshal : String → ParserState → ParserState) (obj : ParserState)
    (P url : String) (status : Nat) :
    goTrim ("[" ++ P ++ "]") = goTrim P ∧
    response (netConst status ("[" ++ P ++ "]")) unmarshal url obj =
      response (netConst status P) unmarshal url obj := by
  refine ⟨goTrim_wrap P, ?_⟩
  show unmarshal (goTrim ("[" ++ P ++ "]")) obj = unmarshal (goTrim P) obj
  rw [goTrim_wrap]

/-- C8: the fetch-and-decode step swallows every failure mode: for every
network behaviour it either leaves the decode target untouched, or its entire
effect is exactly the decode applied to the trimmed body. -/
theorem response_swallows_all_failures (net : Network)
    (unmarshal : String → ParserState → ParserState) (url : String)
    (obj : ParserState) :
    response net unmarshal url obj = obj ∨
    ∃ status data, net.perform url = .ok ⟨status, .ok data⟩ ∧
      response net unmarshal url obj = unmarshal (goTrim data) obj := by
  by_cases h : net.newRequestOk url
  · cases hp : net.perform url with
    | doError => left; simp [response, h, hp]
    | ok resp =>
      cases resp with
      | mk status body =>
        cases body with
        | error e => left; simp [response, h, hp]
        | ok data => right; exact ⟨status, data, rfl, by simp [response, h, hp]⟩
  · left; simp [response, h]

/-- C10: the fetch-and-decode step never inspects the HTTP status code —
rewriting every status leaves its result unchanged — and for any delivered
body, non-2xx included, the body is still read, trimmed and decoded into the
target as if it were a success. -/
theorem status_code_never_inspected :
    (∀ (net : Network) (f : Nat → Nat) (unmarshal : String → ParserState → ParserState)
      (url : String) (obj : ParserState),
      response (withStatus net f) unmarshal url obj = response net unmarshal url obj) ∧
    (∀ (status : Nat) (data : String) (unmarshal : String → ParserState → ParserState)
      (url : String) (obj : ParserState),
      response (netConst status data) unmarshal url obj = unmarshal (goTrim data) obj) := by
  refine ⟨?_, fun status data unmarshal url obj => rfl⟩
  intro net f unmarshal url obj
  by_cases h : net.newRequestOk url
  · cases hp : net.perform url with
    | doError => simp [response, withStatus, h, hp]
    | ok resp =>
      cases resp with
      | mk status body =>
        cases body with
        | error e => simp [response, withStatus, h, hp]
        | ok data => simp [response, withStatus, h, hp]
  · simp [response, withStatus, h]

/-- C2: each call observes exactly one of the two race outcomes — the result
returned equals the worker outcome iff the worker arm fired, and the timeout
outcome iff the timer arm fired (the two are never equal, since the classifier
never yields `TimeoutError`); when the timeout wins, the returned pair is a
constant, independent of the worker (its result is discarded), while the
worker's fetch-and-decode still runs to the same completion state in the
background. -/
theorem race_exactly_one_outcome (g : Geocoder) (a : String) (lat lng : ℚ)
    (w : RaceWinner) :
    (Geocode g a w = (geocodeDelivered g a, anyError (.loc (geocodeDelivered g a)))
      ↔ w = .worker) ∧
    (Geocode g a w = (⟨0, 0⟩, some .TimeoutError) ↔ w = .timer) ∧
    (ReverseGeocode g lat lng w
        = (reverseDelivered g lat lng, anyError (.str (reverseDelivered g lat lng)))
      ↔ w = .worker) ∧
    (ReverseGeocode g lat lng w = ("", some .TimeoutError) ↔ w = .timer) ∧
    (∀ (g2 : Geocoder) (a2 : String), Geocode g a .timer = Geocode g2 a2 .timer) ∧
    (∀ (g2 : Geocoder) (x y : ℚ),
      ReverseGeocode g lat lng .timer = ReverseGeocode g2 x y .timer) ∧
    (geocodeTrace g a .timer).2 = (geocodeTrace g a .worker).2 := by
  have hG : Geocode g a .worker
      = (geocodeDelivered g a, anyError (.loc (geocodeDelivered g a))) := rfl
  have hR : ReverseGeocode g lat lng .worker
      = (reverseDelivered g lat lng, anyError (.str (reverseDelivered g lat lng))) := rfl
  cases w with
  | worker =>
    refine ⟨by simp [hG], ?_, by simp [hR], ?_, fun g2 a2 => rfl, fun g2 x y => rfl, rfl⟩
    · simp only [show (RaceWinner.worker = RaceWinner.timer) ↔ False by simp, iff_false]
      intro h
      have h2 := congrArg Prod.snd h
      simp only [hG] at h2
      exact anyError_ne_timeout _ h2
    · simp only [show (RaceWinner.worker = RaceWinner.timer) ↔ False by simp, iff_false]
      intro h
      have h2 := congrArg Prod.snd h
      simp only [hR] at h2
      exact anyError_ne_timeout _ h2
  | timer =>
    refine ⟨?_, by simp [Geocode], ?_, by simp [ReverseGeocode],
      fun g2 a2 => rfl, fun g2 x y => rfl, rfl⟩
    · simp only [show (RaceWinner.timer = RaceWinner.worker) ↔ False by simp, iff_false]
      intro h
      have h2 := congrArg Prod.snd h
      simp only [show Geocode g a .timer = (⟨0, 0⟩, some .TimeoutError) from rfl] at h2
      exact anyError_ne_timeout _ h2.symm
    · simp only [show (RaceWinner.timer = RaceWinner.worker) ↔ False by simp, iff_false]
      intro h
      have h2 := congrArg Prod.snd h
      simp only [show ReverseGeocode g lat lng .timer = ("", some .TimeoutError) from rfl] at h2
      exact anyError_ne_timeout _ h2.symm

/-- C1 counterexample: a parser capability whose `ResponseObject()` returns a
genuinely fresh decode target and whose decode deterministically writes the
non-zero `Location{1,2}` into it; `Geocode` nevertheless answers with the
embedded shared parser's `Location{5,6}`, not with the fresh target's value. -/
theorem geocode_fresh_target_counterexample :
    g1.responseObject = .fresh ⟨⟨0, 0⟩, ""⟩ ∧
    (geocodeDecoded g1 "Paris").location = ⟨1, 2⟩ ∧
    ((⟨1, 2⟩ : Location) ≠ ⟨0, 0⟩) ∧
    Geocode g1 "Paris" .worker ≠ ((⟨1, 2⟩ : Location), none) ∧
    Geocode g1 "Paris" .worker = (⟨5, 6⟩, none) :=
  ⟨rfl, rfl, by decide, by decide, rfl⟩

/-- C1 (amended): the Location returned by a non-timeout `Geocode` is the one
exposed by the Geocoder's embedded shared `ResponseParser` (`g.Location()`,
line 50), not by the fresh decode target: when `ResponseObject()` returns the
embedded parser itself and decoding yields a fixed non-zero `L`, `Geocode`
returns exactly `(L, nil)`; when `ResponseObject()` returns a genuinely fresh
instance, the returned Location is the embedded parser's, whatever was
decoded. -/
theorem geocode_location_from_shared_state (g : Geocoder) (a : String) :
    (g.responseObject = .self →
      ∀ L : Location, (geocodeDecoded g a).location = L → L ≠ ⟨0, 0⟩ →
        Geocode g a .worker = (L, none)) ∧
    (∀ init : ParserState, g.responseObject = .fresh init →
      (Geocode g a .worker).1 = g.parser.location) := by
  constructor
  · intro hs L hL hne
    have hd : geocodeDelivered g a = L := by
      simp [geocodeDelivered, hs, hL]
    have hz : ¬ (L.Lat = 0 ∧ L.Lng = 0) := by
      cases L with
      | mk x y => simpa [Location.mk.injEq] using hne
    simp [Geocode, hd, anyError, hz]
  · intro init hf
    simp [Geocode, geocodeDelivered, hf]

/-- Witness for C1 (amended): with a self-aliasing `ResponseObject()` the
decoded `Location{1,2}` is returned with no error; with a fresh target the
embedded parser's value is returned. -/
theorem geocode_location_from_shared_state_witness :
    Geocode g2 "Paris" .worker = ((⟨1, 2⟩ : Location), none) ∧
    (Geocode g1 "x" .worker).1 = g1.parser.location :=
  ⟨(geocode_location_from_shared_state g2 "Paris").1 rfl ⟨1, 2⟩ rfl (by decide),
   (geocode_location_from_shared_state g1 "x").2 ⟨⟨0, 0⟩, ""⟩ rfl⟩

/-- C3 counterexample: for the address `"a b"` the endpoint builder receives
`"a+b"` — the query-escaped form — and not the caller's raw string. -/
theorem geocode_raw_address_counterexample :
    builderGeocodeInput "a b" = "a+b" ∧
    builderGeocodeInput "a b" ≠ "a b" ∧
    geocodeRequestUrl g3 "a b" = "a+b" :=
  ⟨rfl, by decide, rfl⟩

/-- C3 (amended): `Geocode` passes `url.QueryEscape(address)` — not the raw
address — to the Endpoint Builder's geocode-URL function; in particular no raw
space byte ever reaches the builder. -/
theorem geocode_builder_receives_escaped (g : Geocoder) (a : String) :
    geocodeRequestUrl g a = g.geocodeUrl (queryEscape a) ∧
    builderGeocodeInput a = queryEscape a ∧
    (∀ x ∈ queryEscapeBytes (strBytes a), x ≠ 32) :=
  ⟨rfl, rfl, queryEscapeBytes_no_space _⟩

/-- Witness for C3 (amended) at the concrete address `"a b"`. -/
theorem geocode_builder_receives_escaped_witness :
    geocodeRequestUrl g3 "a b" = g3.geocodeUrl (queryEscape "a b") ∧ (43 : Nat) ≠ 32 :=
  ⟨(geocode_builder_receives_escaped g3 "a b").1,
   (geocode_builder_receives_escaped g3 "a b").2.2 43 (by decide)⟩

/-- C9: the pre-decode trim strips every leading and trailing run of space or
bracket characters regardless of JSON structure — the trimmed result never
starts or ends with a cutset character — so a genuine two-element top-level
JSON array loses its brackets, the remainder is no longer one JSON value, and
any decode routine honouring the `encoding/json` contract (mutate only on a
valid payload) leaves the decode target at its prior (zero) value. -/
theorem trim_breaks_top_level_arrays :
    (∀ (s : String) (c : Char),
      ((goTrim s).data.head? = some c → trimCut c = false) ∧
      ((goTrim s).data.getLast? = some c → trimCut c = false)) ∧
    goTrim multiElementBody = multiElementTrimmed ∧
    isJsonText multiElementBody = true ∧
    isJsonText multiElementTrimmed = false ∧
    (∀ unmarshal : String → ParserState → ParserState,
      (∀ (s : String) (st : ParserState), isJsonText s = false → unmarshal s st = st) →
      ∀ (status : Nat) (url : String) (obj : ParserState),
        response (netConst status multiElementBody) unmarshal url obj = obj) := by
  refine ⟨fun s c => ⟨goTrim_head? s c, goTrim_getLast? s c⟩, by decide, by decide,
    by decide, ?_⟩
  intro unmarshal hu status url obj
  have h1 : response (netConst status multiElementBody) unmarshal url obj
      = unmarshal (goTrim multiElementBody) obj := rfl
  rw [h1, show goTrim multiElementBody = multiElementTrimmed by decide]
  exact hu _ _ (by decide)

/-- Witness for C9: a contract-honouring decoder fed the two-element array body
leaves the zero decode target untouched. -/
theorem trim_breaks_top_level_arrays_witness :
    response (netConst 200 multiElementBody) uJson "u" ⟨⟨0, 0⟩, ""⟩ = ⟨⟨0, 0⟩, ""⟩ :=
  trim_breaks_top_level_arrays.2.2.2.2 uJson
    (fun s st h => by simp [uJson, h]) 200 "u" ⟨⟨0, 0⟩, ""⟩

end Geo
